import Mathlib

/-!
Shallow embedding of `src/time-sync.cpp`, a utility that restarts the
Windows time service (`w32time`) and triggers a resync.

The OS is modelled as an environment:
* `PollEnv` gives, for each poll index `k`, the result of the `k`-th
  `QueryServiceStatusEx` call (`none` = the query itself failed,
  `some s` = it reported current state `s`) and the value of
  `elapsed.count()` (milliseconds on the monotonic clock since
  `startTime`) observed at the `k`-th timeout check.
* `StopEnv` / `StartEnv` add the outcomes of `OpenSCManager`,
  `OpenService` and of the control request (`ControlService` /
  `StartService`): `none` = the request succeeded, `some err` = it
  failed with `GetLastError() = err`.

The polling loop of `WaitForServiceStatus` runs on fuel and returns
`none` when the fuel is exhausted before the loop returns, so claims
about termination are stated as the existence of sufficient fuel.
Alongside the boolean result, the embedded functions return the index
of the poll at which the loop stopped (hence the number of queries
issued and of 250 ms sleeps performed) and the trace of service-handle
events, so that resource claims are statable.
-/

namespace TimeSync

/-- Windows constant `SERVICE_STOPPED` (winsvc.h). -/
def SERVICE_STOPPED : Nat := 1

/-- Windows constant `SERVICE_RUNNING` (winsvc.h). -/
def SERVICE_RUNNING : Nat := 4

/-- Windows error code `ERROR_SERVICE_ALREADY_RUNNING`. -/
def ERROR_SERVICE_ALREADY_RUNNING : Nat := 1056

/-- Windows error code `ERROR_SERVICE_NOT_ACTIVE`. -/
def ERROR_SERVICE_NOT_ACTIVE : Nat := 1062

/-- The three ways the polling loop in `WaitForServiceStatus` can return:
the query reported the target state (`return true`, line 53), the query
itself failed (`return false`, line 49), or the timeout check fired
(`return false`, line 59). -/
inductive WaitOutcome where
  | reachedTarget
  | timedOut
  | queryFailed
deriving DecidableEq, Repr

/-- Environment seen by the polling loop: the result of the `k`-th status
query, and the monotonic-clock elapsed milliseconds observed at the `k`-th
timeout check. -/
structure PollEnv where
  query : Nat → Option Nat
  elapsed : Nat → Nat

/-- The `while (true)` loop of `WaitForServiceStatus` (lines 46-64),
started at poll index `k`, with `fuel` remaining iterations.  Returns the
outcome together with the index of the poll at which the loop returned;
`none` means the fuel ran out first.  Mirrors the source order exactly:
query first (failure is fatal), then the match check, then the timeout
check, then sleep and loop. -/
def waitPoll (env : PollEnv) (targetStatus timeoutMillis : Nat) :
    Nat → Nat → Option (WaitOutcome × Nat)
  | 0, _ => none
  | fuel + 1, k =>
    match env.query k with
    | none => some (WaitOutcome.queryFailed, k)
    | some s =>
      if s = targetStatus then some (WaitOutcome.reachedTarget, k)
      else if timeoutMillis ≤ env.elapsed k then some (WaitOutcome.timedOut, k)
      else waitPoll env targetStatus timeoutMillis fuel (k + 1)

/-- `WaitForServiceStatus` (lines 41-65): runs the polling loop from index
0 and collapses the outcome into the C++ `bool` result, paired with the
number of status queries issued (stop index + 1). -/
def WaitForServiceStatus (env : PollEnv) (targetStatus timeoutMillis fuel : Nat) :
    Option (Bool × Nat) :=
  match waitPoll env targetStatus timeoutMillis fuel 0 with
  | none => none
  | some (o, k) =>
    some ((match o with | WaitOutcome.reachedTarget => true | _ => false), k + 1)

/-- The loop continues past poll `j`: the `j`-th query succeeded with a
non-target state and the `j`-th timeout check found the timeout not yet
elapsed. -/
def Continues (env : PollEnv) (targetStatus timeoutMillis j : Nat) : Prop :=
  ∃ s, env.query j = some s ∧ s ≠ targetStatus ∧ env.elapsed j < timeoutMillis

/-- What must hold at the stopping index `m` for each outcome. -/
def StopsAt (env : PollEnv) (targetStatus timeoutMillis : Nat) :
    WaitOutcome → Nat → Prop
  | WaitOutcome.reachedTarget, m => env.query m = some targetStatus
  | WaitOutcome.timedOut, m =>
      (∃ s, env.query m = some s ∧ s ≠ targetStatus) ∧
        timeoutMillis ≤ env.elapsed m
  | WaitOutcome.queryFailed, m => env.query m = none

/-- Events on the two RAII service handles (`ScHandlePtr`, lines 29-38):
acquisition by `OpenSCManager` / `OpenService` and release by
`CloseServiceHandle` in the `ServiceHandleDeleter`. -/
inductive HEvent where
  | openScm
  | openSvc
  | closeSvc
  | closeScm
deriving DecidableEq, Repr

/-- Handle trace of a stop or start operation that opened both handles:
`unique_ptr` members are destroyed in reverse declaration order, so the
service handle is closed before the manager handle. -/
def scopeTrace : List HEvent :=
  [HEvent.openScm, HEvent.openSvc, HEvent.closeSvc, HEvent.closeScm]

/-- Environment of `StopServiceByName`: whether `OpenSCManager` and
`OpenService` succeed, the outcome of the `ControlService` stop request
(`none` = it returned nonzero/success, `some err` = it failed with
`GetLastError() = err`), and the poll environment for the wait. -/
structure StopEnv where
  scmOpen : Bool
  svcOpen : Bool
  controlError : Option Nat
  poll : PollEnv

/-- Environment of `StartServiceByName`: like `StopEnv` but with the
outcome of the `StartService` request. -/
structure StartEnv where
  scmOpen : Bool
  svcOpen : Bool
  startError : Option Nat
  poll : PollEnv

/-- `StopServiceByName` (lines 68-95).  Returns the C++ `bool` result, the
number of status queries issued inside the wait, and the trace of handle
events up to the return; `none` = the wait loop ran out of fuel.
`ERROR_SERVICE_NOT_ACTIVE` from `ControlService` is treated as success and
the function still proceeds to wait for `SERVICE_STOPPED`; any other
control failure returns `false` before the wait. -/
def StopServiceByName (env : StopEnv) (fuel : Nat) : Option (Bool × Nat × List HEvent) :=
  if env.scmOpen = false then some (false, 0, []) else
  if env.svcOpen = false then some (false, 0, [HEvent.openScm, HEvent.closeScm]) else
  match env.controlError with
  | some err =>
    if err ≠ ERROR_SERVICE_NOT_ACTIVE then some (false, 0, scopeTrace)
    else
      match WaitForServiceStatus env.poll SERVICE_STOPPED 30000 fuel with
      | none => none
      | some (b, q) => some (b, q, scopeTrace)
  | none =>
    match WaitForServiceStatus env.poll SERVICE_STOPPED 30000 fuel with
    | none => none
    | some (b, q) => some (b, q, scopeTrace)

/-- `StartServiceByName` (lines 98-125).  `ERROR_SERVICE_ALREADY_RUNNING`
from `StartService` returns `true` immediately, before any wait; any other
start failure returns `false`; on a successful start request the function
waits for `SERVICE_RUNNING`. -/
def StartServiceByName (env : StartEnv) (fuel : Nat) : Option (Bool × Nat × List HEvent) :=
  if env.scmOpen = false then some (false, 0, []) else
  if env.svcOpen = false then some (false, 0, [HEvent.openScm, HEvent.closeScm]) else
  match env.startError with
  | some err =>
    if err ≠ ERROR_SERVICE_ALREADY_RUNNING then some (false, 0, scopeTrace)
    else some (true, 0, scopeTrace)
  | none =>
    match WaitForServiceStatus env.poll SERVICE_RUNNING 30000 fuel with
    | none => none
    | some (b, q) => some (b, q, scopeTrace)

/-- Observable phase events of `main`: the stop phase ran (with its handle
trace), the start phase ran (with its handle trace), and the external
resync command `w32tm /resync /nowait` was invoked via `system()`. -/
inductive PhaseEvent where
  | stopPhase (tr : List HEvent)
  | startPhase (tr : List HEvent)
  | resyncCall
deriving DecidableEq, Repr

/-- Environment of `main`: the environments of the two phases and the exit
status of the `system()` resync invocation (negative = the command could
not be invoked).  The resync exit status only selects which message is
printed (line 141); it does not influence the process exit status. -/
structure MainEnv where
  stopEnv : StopEnv
  startEnv : StartEnv
  resyncExit : Int

/-- `main` (lines 127-155): stop, then (on success) start, then (on
success) invoke the resync command; always `return 0` (line 154).  Returns
the list of phase events and the process exit status; `none` = a wait loop
ran out of fuel. -/
def main (env : MainEnv) (fuel : Nat) : Option (List PhaseEvent × Int) :=
  match StopServiceByName env.stopEnv fuel with
  | none => none
  | some (stopOk, _, trS) =>
    if stopOk then
      match StartServiceByName env.startEnv fuel with
      | none => none
      | some (startOk, _, trT) =>
        if startOk then
          some ([PhaseEvent.stopPhase trS, PhaseEvent.startPhase trT,
                 PhaseEvent.resyncCall], 0)
        else
          some ([PhaseEvent.stopPhase trS, PhaseEvent.startPhase trT], 0)
    else
      some ([PhaseEvent.stopPhase trS], 0)

/-- A handle trace is well scoped: every handle opened in it is also
closed in it (before the operation returned, since the trace ends at the
return), and a close of the service handle never precedes its open. -/
def WellScoped (tr : List HEvent) : Prop :=
  tr.count HEvent.openScm = tr.count HEvent.closeScm ∧
  tr.count HEvent.openSvc = tr.count HEvent.closeSvc ∧
  (tr ≠ [] → tr.head? = some HEvent.openScm)

instance (tr : List HEvent) : Decidable (WellScoped tr) := by
  unfold WellScoped
  infer_instance

/-- Poll environment whose queries always report `SERVICE_STOPPED` on an
ideal clock (used to instantiate theorems at concrete inputs). -/
def stoppedPoll : PollEnv where
  query := fun _ => some SERVICE_STOPPED
  elapsed := fun k => 250 * k

/-- Poll environment whose queries always report `SERVICE_RUNNING` on an
ideal clock. -/
def runningPoll : PollEnv where
  query := fun _ => some SERVICE_RUNNING
  elapsed := fun k => 250 * k

/-- Poll environment whose queries always report `SERVICE_START_PENDING`
(state 2, never the target) on an ideal clock. -/
def pendingPoll : PollEnv where
  query := fun _ => some 2
  elapsed := fun k => 250 * k

/-- Poll environment that reports state 2 on the first query and
`SERVICE_RUNNING` on every later query, on an ideal clock. -/
def lateRunningPoll : PollEnv where
  query := fun k => if k = 0 then some 2 else some SERVICE_RUNNING
  elapsed := fun k => 250 * k

/-- Poll environment whose first query fails. -/
def failingPoll : PollEnv where
  query := fun _ => none
  elapsed := fun k => 250 * k

/-- Main environment in which every phase succeeds at once: the stop
request succeeds and the service reports `SERVICE_STOPPED`, the start
request succeeds and the service reports `SERVICE_RUNNING`, the resync
command exits 0. -/
def allOkMainEnv : MainEnv where
  stopEnv := { scmOpen := true, svcOpen := true, controlError := none, poll := stoppedPoll }
  startEnv := { scmOpen := true, svcOpen := true, startError := none, poll := runningPoll }
  resyncExit := 0

/-- Main environment in which the stop phase fails at `OpenSCManager`. -/
def stopFailMainEnv : MainEnv where
  stopEnv := { scmOpen := false, svcOpen := true, controlError := none, poll := stoppedPoll }
  startEnv := { scmOpen := true, svcOpen := true, startError := none, poll := runningPoll }
  resyncExit := 0

/-- Stop environment in which `ControlService` reports the service was not
active, and the service indeed reports `SERVICE_STOPPED` when queried. -/
def notActiveStopEnv : StopEnv where
  scmOpen := true
  svcOpen := true
  controlError := some ERROR_SERVICE_NOT_ACTIVE
  poll := stoppedPoll

/-- Stop environment in which `ControlService` fails with
`ERROR_ACCESS_DENIED` (code 5). -/
def deniedStopEnv : StopEnv where
  scmOpen := true
  svcOpen := true
  controlError := some 5
  poll := stoppedPoll

/-- Start environment in which `StartService` reports the service is
already running. -/
def alreadyRunningStartEnv : StartEnv where
  scmOpen := true
  svcOpen := true
  startError := some ERROR_SERVICE_ALREADY_RUNNING
  poll := runningPoll

/-- Start environment in which `StartService` fails with
`ERROR_ACCESS_DENIED` (code 5). -/
def deniedStartEnv : StartEnv where
  scmOpen := true
  svcOpen := true
  startError := some 5
  poll := runningPoll

/-- Characterization of the polling loop: it returns `(o, m)` exactly when
every poll strictly before `m` (and at or after the start index) let the
loop continue, and poll `m` triggers the return condition of `o`. -/
theorem waitPoll_some_iff (env : PollEnv) (t tmo : Nat) :
    ∀ fuel k o m, waitPoll env t tmo fuel k = some (o, m) ↔
      (k ≤ m ∧ m < k + fuel ∧ StopsAt env t tmo o m ∧
        ∀ j, k ≤ j → j < m → Continues env t tmo j) := by
  intro fuel
  induction fuel with
  | zero =>
    intro k o m
    constructor
    · intro h
      simp [waitPoll] at h
    · rintro ⟨h1, h2, -, -⟩
      omega
  | succ n ih =>
    intro k o m
    cases hq : env.query k with
    | none =>
      have hred : waitPoll env t tmo (n + 1) k = some (WaitOutcome.queryFailed, k) := by
        simp [waitPoll, hq]
      rw [hred]
      constructor
      · intro h
        rw [Option.some.injEq, Prod.mk.injEq] at h
        obtain ⟨ho, hm⟩ := h
        subst ho; subst hm
        refine ⟨Nat.le_refl k, by omega, hq, ?_⟩
        intro j hj1 hj2
        omega
      · rintro ⟨h1, h2, h3, h4⟩
        have hm : m = k := by
          by_contra hne
          have hkm : k < m := by omega
          obtain ⟨s, hs, -, -⟩ := h4 k (Nat.le_refl k) hkm
          rw [hq] at hs
          exact Option.noConfusion hs
        subst hm
        cases o with
        | reachedTarget =>
          rw [show StopsAt env t tmo WaitOutcome.reachedTarget m = (env.query m = some t) from rfl] at h3
          rw [hq] at h3
          exact Option.noConfusion h3
        | timedOut =>
          obtain ⟨⟨s, hs, -⟩, -⟩ := h3
          rw [hq] at hs
          exact Option.noConfusion hs
        | queryFailed => rfl
    | some s =>
      by_cases hs : s = t
      · have hred : waitPoll env t tmo (n + 1) k = some (WaitOutcome.reachedTarget, k) := by
          simp [waitPoll, hq, hs]
        rw [hred]
        constructor
        · intro h
          rw [Option.some.injEq, Prod.mk.injEq] at h
          obtain ⟨ho, hm⟩ := h
          subst ho; subst hm
          refine ⟨Nat.le_refl k, by omega, hs ▸ hq, ?_⟩
          intro j hj1 hj2
          omega
        · rintro ⟨h1, h2, h3, h4⟩
          have hm : m = k := by
            by_contra hne
            have hkm : k < m := by omega
            obtain ⟨s2, hs2, hne2, -⟩ := h4 k (Nat.le_refl k) hkm
            rw [hq] at hs2
            exact hne2 ((Option.some.inj hs2) ▸ hs)
          subst hm
          cases o with
          | reachedTarget => rfl
          | timedOut =>
            obtain ⟨⟨s2, hs2, hne2⟩, -⟩ := h3
            rw [hq] at hs2
            exact absurd ((Option.some.inj hs2).symm.trans hs) hne2
          | queryFailed =>
            rw [show StopsAt env t tmo WaitOutcome.queryFailed m = (env.query m = none) from rfl] at h3
            rw [hq] at h3
            exact Option.noConfusion h3
      · by_cases hto : tmo ≤ env.elapsed k
        · have hred : waitPoll env t tmo (n + 1) k = some (WaitOutcome.timedOut, k) := by
            simp [waitPoll, hq, hs, hto]
          rw [hred]
          constructor
          · intro h
            rw [Option.some.injEq, Prod.mk.injEq] at h
            obtain ⟨ho, hm⟩ := h
            subst ho; subst hm
            exact ⟨Nat.le_refl k, by omega, ⟨⟨s, hq, hs⟩, hto⟩, fun j hj1 hj2 => by omega⟩
          · rintro ⟨h1, h2, h3, h4⟩
            have hm : m = k := by
              by_contra hne
              have hkm : k < m := by omega
              obtain ⟨s2, hs2, -, hlt⟩ := h4 k (Nat.le_refl k) hkm
              omega
            subst hm
            cases o with
            | reachedTarget =>
              rw [show StopsAt env t tmo WaitOutcome.reachedTarget m = (env.query m = some t) from rfl] at h3
              rw [hq] at h3
              exact absurd (Option.some.inj h3) hs
            | timedOut => rfl
            | queryFailed =>
              rw [show StopsAt env t tmo WaitOutcome.queryFailed m = (env.query m = none) from rfl] at h3
              rw [hq] at h3
              exact Option.noConfusion h3
        · have hred : waitPoll env t tmo (n + 1) k = waitPoll env t tmo n (k + 1) := by
            simp [waitPoll, hq, hs, hto]
          rw [hred, ih (k + 1) o m]
          constructor
          · rintro ⟨h1, h2, h3, h4⟩
            refine ⟨by omega, by omega, h3, ?_⟩
            intro j hj1 hj2
            rcases Nat.eq_or_lt_of_le hj1 with heq | hlt
            · subst heq
              exact ⟨s, hq, hs, Nat.lt_of_not_le hto⟩
            · exact h4 j hlt hj2
          · rintro ⟨h1, h2, h3, h4⟩
            have hne : m ≠ k := by
              intro he
              subst he
              cases o with
              | reachedTarget =>
                rw [show StopsAt env t tmo WaitOutcome.reachedTarget m = (env.query m = some t) from rfl] at h3
                rw [hq] at h3
                exact hs (Option.some.inj h3)
              | timedOut => exact hto h3.2
              | queryFailed =>
                rw [show StopsAt env t tmo WaitOutcome.queryFailed m = (env.query m = none) from rfl] at h3
                rw [hq] at h3
                exact Option.noConfusion h3
            exact ⟨by omega, by omega, h3, fun j hj1 hj2 => h4 j (by omega) hj2⟩

/-- Every handle trace returned by `StopServiceByName` is well scoped. -/
theorem stop_trace_wellScoped (env : StopEnv) (fuel : Nat) (b : Bool) (q : Nat)
    (tr : List HEvent) (h : StopServiceByName env fuel = some (b, q, tr)) :
    WellScoped tr := by
  unfold StopServiceByName at h
  split at h
  · simp only [Option.some.injEq, Prod.mk.injEq] at h
    rw [← h.2.2]
    decide
  · split at h
    · simp only [Option.some.injEq, Prod.mk.injEq] at h
      rw [← h.2.2]
      decide
    · split at h
      · split at h
        · simp only [Option.some.injEq, Prod.mk.injEq] at h
          rw [← h.2.2]
          decide
        · split at h
          · exact Option.noConfusion h
          · simp only [Option.some.injEq, Prod.mk.injEq] at h
            rw [← h.2.2]
            decide
      · split at h
        · exact Option.noConfusion h
        · simp only [Option.some.injEq, Prod.mk.injEq] at h
          rw [← h.2.2]
          decide

/-- Every handle trace returned by `StartServiceByName` is well scoped. -/
theorem start_trace_wellScoped (env : StartEnv) (fuel : Nat) (b : Bool) (q : Nat)
    (tr : List HEvent) (h : StartServiceByName env fuel = some (b, q, tr)) :
    WellScoped tr := by
  unfold StartServiceByName at h
  split at h
  · simp only [Option.some.injEq, Prod.mk.injEq] at h
    rw [← h.2.2]
    decide
  · split at h
    · simp only [Option.some.injEq, Prod.mk.injEq] at h
      rw [← h.2.2]
      decide
    · split at h
      · split at h
        · simp only [Option.some.injEq, Prod.mk.injEq] at h
          rw [← h.2.2]
          decide
        · simp only [Option.some.injEq, Prod.mk.injEq] at h
          rw [← h.2.2]
          decide
      · split at h
        · exact Option.noConfusion h
        · simp only [Option.some.injEq, Prod.mk.injEq] at h
          rw [← h.2.2]
          decide

/-- C1: the wait returns `reachedTarget` exactly when some status query
reports the target state after every earlier poll let the loop continue
(its query succeeded with a non-target state and the timeout had not yet
elapsed at its check); in particular, if already the first query reports
the target, the loop returns `reachedTarget` at that very poll, for every
timeout, without waiting it out. -/
theorem wait_reached_iff_query_matches (env : PollEnv) (t tmo fuel : Nat) :
    (∀ o m, waitPoll env t tmo fuel 0 = some (o, m) →
      (o = WaitOutcome.reachedTarget ↔
        ∃ k, env.query k = some t ∧ ∀ j, j < k → Continues env t tmo j)) ∧
    (env.query 0 = some t → 1 ≤ fuel →
      waitPoll env t tmo fuel 0 = some (WaitOutcome.reachedTarget, 0)) := by
  constructor
  · intro o m h
    obtain ⟨h1, h2, h3, h4⟩ := (waitPoll_some_iff env t tmo fuel 0 o m).mp h
    constructor
    · intro ho
      subst ho
      exact ⟨m, h3, fun j hj => h4 j (Nat.zero_le j) hj⟩
    · rintro ⟨k, hk1, hk2⟩
      cases o with
      | reachedTarget => rfl
      | timedOut =>
        obtain ⟨⟨s, hqs, hsne⟩, hto⟩ := h3
        rcases Nat.lt_trichotomy k m with hlt | heq | hgt
        · obtain ⟨s2, hq2, hne2, -⟩ := h4 k (Nat.zero_le k) hlt
          rw [hk1] at hq2
          exact absurd (Option.some.inj hq2).symm hne2
        · subst heq
          rw [hk1] at hqs
          exact absurd (Option.some.inj hqs).symm hsne
        · obtain ⟨s2, -, -, hlt2⟩ := hk2 m hgt
          omega
      | queryFailed =>
        rcases Nat.lt_trichotomy k m with hlt | heq | hgt
        · obtain ⟨s2, hq2, hne2, -⟩ := h4 k (Nat.zero_le k) hlt
          rw [hk1] at hq2
          exact absurd (Option.some.inj hq2).symm hne2
        · subst heq
          rw [show StopsAt env t tmo WaitOutcome.queryFailed k = (env.query k = none) from rfl] at h3
          rw [hk1] at h3
          exact Option.noConfusion h3
        · obtain ⟨s2, hq2, -, -⟩ := hk2 m hgt
          rw [show StopsAt env t tmo WaitOutcome.queryFailed m = (env.query m = none) from rfl] at h3
          rw [h3] at hq2
          exact Option.noConfusion hq2
  · intro hq0 hfuel
    obtain ⟨n, rfl⟩ : ∃ n, fuel = n + 1 := ⟨fuel - 1, by omega⟩
    simp [waitPoll, hq0]

/-- Witness for C1 at a concrete input: the first query already reports
`SERVICE_STOPPED`, so the wait returns `reachedTarget` at poll 0. -/
theorem wait_reached_iff_query_matches_witness :
    waitPoll stoppedPoll SERVICE_STOPPED 30000 1 0 =
      some (WaitOutcome.reachedTarget, 0) :=
  (wait_reached_iff_query_matches stoppedPoll SERVICE_STOPPED 30000 1).2 rfl
    (by decide)

/-- C6: each poll issues a fresh status query, and the first failed query
is fatal: if every poll before `k` let the loop continue and the `k`-th
query fails, the wait returns `queryFailed` at index `k` at once — exactly
`k + 1` queries were issued, so the failed query was not retried and the
C++ result is `false`. -/
theorem query_failure_fatal (env : PollEnv) (t tmo fuel k : Nat)
    (hk : ∀ j, j < k → Continues env t tmo j)
    (hq : env.query k = none)
    (hfuel : k + 1 ≤ fuel) :
    waitPoll env t tmo fuel 0 = some (WaitOutcome.queryFailed, k) ∧
    WaitForServiceStatus env t tmo fuel = some (false, k + 1) := by
  have h1 : waitPoll env t tmo fuel 0 = some (WaitOutcome.queryFailed, k) :=
    (waitPoll_some_iff env t tmo fuel 0 WaitOutcome.queryFailed k).mpr
      ⟨Nat.zero_le k, by omega, hq, fun j hj0 hj => hk j hj⟩
  exact ⟨h1, by simp [WaitForServiceStatus, h1]⟩

/-- Witness for C6 at a concrete input: the very first query fails and the
wait returns `queryFailed` after that single query. -/
theorem query_failure_fatal_witness :
    waitPoll failingPoll SERVICE_RUNNING 30000 1 0 =
      some (WaitOutcome.queryFailed, 0) ∧
    WaitForServiceStatus failingPoll SERVICE_RUNNING 30000 1 = some (false, 1) :=
  query_failure_fatal failingPoll SERVICE_RUNNING 30000 1 0
    (fun j hj => absurd hj (by omega)) rfl (by decide)

/-- C9: the timeout is evaluated only after a query whose state does not
match: if every poll before `k` let the loop continue, the `k`-th query
reports the target state, and the elapsed time observed at poll `k`
already reaches or exceeds the timeout, the wait still returns
`reachedTarget` (C++ `true`); a matching poll is never preempted by the
timeout. -/
theorem match_preempts_timeout (env : PollEnv) (t tmo fuel k : Nat)
    (hk : ∀ j, j < k → Continues env t tmo j)
    (hq : env.query k = some t)
    (hto : tmo ≤ env.elapsed k)
    (hfuel : k + 1 ≤ fuel) :
    waitPoll env t tmo fuel 0 = some (WaitOutcome.reachedTarget, k) ∧
    WaitForServiceStatus env t tmo fuel = some (true, k + 1) := by
  have h1 : waitPoll env t tmo fuel 0 = some (WaitOutcome.reachedTarget, k) :=
    (waitPoll_some_iff env t tmo fuel 0 WaitOutcome.reachedTarget k).mpr
      ⟨Nat.zero_le k, by omega, hq, fun j hj0 hj => hk j hj⟩
  exact ⟨h1, by simp [WaitForServiceStatus, h1]⟩

/-- Witness for C9 at a concrete input: with a 100 ms timeout, poll 1
happens at elapsed 250 ms ≥ 100 ms, yet its matching query wins. -/
theorem match_preempts_timeout_witness :
    waitPoll lateRunningPoll SERVICE_RUNNING 100 2 0 =
      some (WaitOutcome.reachedTarget, 1) ∧
    WaitForServiceStatus lateRunningPoll SERVICE_RUNNING 100 2 = some (true, 2) :=
  match_preempts_timeout lateRunningPoll SERVICE_RUNNING 100 2 1
    (fun j hj => by
      interval_cases j
      exact ⟨2, rfl, by decide, by decide⟩)
    rfl (by decide) (by decide)

/-- C10: the wait always issues its first status query before any other
check (so at least one query is issued before returning, whatever the
timeout: in particular a failing first query is observed even with
`timeoutMillis = 0`); and with `timeoutMillis = 0` the loop stops at poll
index 0 — exactly one query and no sleep — returning `reachedTarget` if
that query reports the target state and `timedOut` otherwise. -/
theorem zero_timeout_single_query (env : PollEnv) (t fuel : Nat)
    (hfuel : 1 ≤ fuel) :
    (∀ o m, waitPoll env t 0 fuel 0 = some (o, m) → m = 0) ∧
    (∀ s, env.query 0 = some s →
      waitPoll env t 0 fuel 0 =
        some ((if s = t then WaitOutcome.reachedTarget else WaitOutcome.timedOut), 0)) ∧
    (∀ tmo, env.query 0 = none →
      waitPoll env t tmo fuel 0 = some (WaitOutcome.queryFailed, 0)) := by
  obtain ⟨n, rfl⟩ : ∃ n, fuel = n + 1 := ⟨fuel - 1, by omega⟩
  refine ⟨?_, ?_, ?_⟩
  · intro o m h
    obtain ⟨h1, h2, h3, h4⟩ := (waitPoll_some_iff env t 0 (n + 1) 0 o m).mp h
    by_contra hne
    obtain ⟨s, -, -, hlt⟩ := h4 0 (Nat.le_refl 0) (by omega)
    omega
  · intro s hq0
    by_cases hst : s = t
    · simp [waitPoll, hq0, hst]
    · simp [waitPoll, hq0, hst]
  · intro tmo hq0
    simp [waitPoll, hq0]

/-- Witness for C10 at a concrete input: the single query reports the
target, so the zero-timeout wait returns `reachedTarget` at poll 0. -/
theorem zero_timeout_single_query_witness :
    waitPoll stoppedPoll SERVICE_STOPPED 0 1 0 =
      some (WaitOutcome.reachedTarget, 0) := by
  have h := (zero_timeout_single_query stoppedPoll SERVICE_STOPPED 1
    (by decide)).2.1 SERVICE_STOPPED rfl
  simpa using h

/-- C7: when no query fails and the state never matches, the wait
terminates with `timedOut`; elapsed time is one monotonic clock measured
from before the first poll (`h0`), never reset by non-matching states, and
if it grows by at most 250 ms per poll step (the sleep interval, `hub`)
the elapsed value observed when the loop returns never exceeds
`timeoutMillis + 250`. -/
theorem wait_timedOut_within_bound (env : PollEnv) (t tmo : Nat)
    (h0 : env.elapsed 0 = 0)
    (hub : ∀ k, env.elapsed (k + 1) ≤ env.elapsed k + 250)
    (hlb : ∀ k, env.elapsed k < env.elapsed (k + 1))
    (hq : ∀ k, ∃ s, env.query k = some s ∧ s ≠ t) :
    ∃ fuel m, waitPoll env t tmo fuel 0 = some (WaitOutcome.timedOut, m) ∧
      env.elapsed m ≤ tmo + 250 := by
  have hgrow : ∀ k, k ≤ env.elapsed k := by
    intro k
    induction k with
    | zero => omega
    | succ n ihn =>
      have := hlb n
      omega
  have hex : ∃ k, tmo ≤ env.elapsed k := ⟨tmo, hgrow tmo⟩
  refine ⟨Nat.find hex + 1, Nat.find hex, ?_, ?_⟩
  · apply (waitPoll_some_iff env t tmo (Nat.find hex + 1) 0 WaitOutcome.timedOut (Nat.find hex)).mpr
    refine ⟨Nat.zero_le _, by omega, ⟨hq (Nat.find hex), Nat.find_spec hex⟩, ?_⟩
    intro j hj0 hj
    obtain ⟨s, hs, hne⟩ := hq j
    have hjlt : ¬ tmo ≤ env.elapsed j := Nat.find_min hex hj
    exact ⟨s, hs, hne, by omega⟩
  · rcases hfind : Nat.find hex with _ | j
    · omega
    · have hj : ¬ tmo ≤ env.elapsed j := Nat.find_min hex (by omega)
      have hstep := hub j
      omega

/-- Witness for C7 at a concrete input: the state stays `START_PENDING`
on an ideal 250 ms clock with a 600 ms timeout; the wait times out with
the observed elapsed time within 600 + 250 ms. -/
theorem wait_timedOut_within_bound_witness :
    ∃ fuel m, waitPoll pendingPoll SERVICE_RUNNING 600 fuel 0 =
        some (WaitOutcome.timedOut, m) ∧
      pendingPoll.elapsed m ≤ 600 + 250 :=
  wait_timedOut_within_bound pendingPoll SERVICE_RUNNING 600 rfl
    (fun k => by show 250 * (k + 1) ≤ 250 * k + 250; omega)
    (fun k => by show 250 * k < 250 * (k + 1); omega)
    (fun k => ⟨2, rfl, by decide⟩)

/-- C4: when `ControlService` rejects the stop because the service is not
active, `StopServiceByName` treats it as success and proceeds to the wait,
which confirms the already-stopped state with a single status query and no
sleep; any other control failure returns `false` with zero status queries,
never entering the wait. -/
theorem stop_idempotent_not_active (env : StopEnv) (fuel : Nat)
    (hscm : env.scmOpen = true) (hsvc : env.svcOpen = true) :
    (env.controlError = some ERROR_SERVICE_NOT_ACTIVE →
      env.poll.query 0 = some SERVICE_STOPPED → 1 ≤ fuel →
      StopServiceByName env fuel = some (true, 1, scopeTrace)) ∧
    (∀ err, env.controlError = some err → err ≠ ERROR_SERVICE_NOT_ACTIVE →
      StopServiceByName env fuel = some (false, 0, scopeTrace)) := by
  constructor
  · intro hce hq0 hfuel
    obtain ⟨n, rfl⟩ : ∃ n, fuel = n + 1 := ⟨fuel - 1, by omega⟩
    simp [StopServiceByName, hscm, hsvc, hce, WaitForServiceStatus, waitPoll, hq0]
  · intro err hce herr
    simp [StopServiceByName, hscm, hsvc, hce, herr]

/-- Witness for C4 at concrete inputs: a not-active stop succeeds after
one confirming query; an access-denied stop (code 5) fails with zero
queries. -/
theorem stop_idempotent_not_active_witness :
    StopServiceByName notActiveStopEnv 1 = some (true, 1, scopeTrace) ∧
    StopServiceByName deniedStopEnv 1 = some (false, 0, scopeTrace) :=
  ⟨(stop_idempotent_not_active notActiveStopEnv 1 rfl rfl).1 rfl rfl (by decide),
   (stop_idempotent_not_active deniedStopEnv 1 rfl rfl).2 5 rfl (by decide)⟩

/-- C5: when `StartService` rejects the start because the service is
already running, `StartServiceByName` returns `true` immediately with zero
status-polling queries; any other start failure returns `false`, also
without polling. -/
theorem start_already_running_no_poll (env : StartEnv) (fuel : Nat)
    (hscm : env.scmOpen = true) (hsvc : env.svcOpen = true) :
    (env.startError = some ERROR_SERVICE_ALREADY_RUNNING →
      StartServiceByName env fuel = some (true, 0, scopeTrace)) ∧
    (∀ err, env.startError = some err → err ≠ ERROR_SERVICE_ALREADY_RUNNING →
      StartServiceByName env fuel = some (false, 0, scopeTrace)) := by
  constructor
  · intro hse
    simp [StartServiceByName, hscm, hsvc, hse]
  · intro err hse herr
    simp [StartServiceByName, hscm, hsvc, hse, herr]

/-- Witness for C5 at concrete inputs: an already-running start succeeds
with zero queries; an access-denied start (code 5) fails with zero
queries. -/
theorem start_already_running_no_poll_witness :
    StartServiceByName alreadyRunningStartEnv 1 = some (true, 0, scopeTrace) ∧
    StartServiceByName deniedStartEnv 1 = some (false, 0, scopeTrace) :=
  ⟨(start_already_running_no_poll alreadyRunningStartEnv 1 rfl rfl).1 rfl,
   (start_already_running_no_poll deniedStartEnv 1 rfl rfl).2 5 rfl (by decide)⟩

/-- C2: in `main` the resync command is invoked exactly when both the stop
phase and the start phase returned success, and the start phase is
attempted exactly when the stop phase returned success; any stop or start
failure short-circuits every later step. -/
theorem resync_iff_start_success (env : MainEnv) (fuel : Nat)
    (evs : List PhaseEvent) (c : Int)
    (h : main env fuel = some (evs, c)) :
    (PhaseEvent.resyncCall ∈ evs ↔
      (∃ q tr, StopServiceByName env.stopEnv fuel = some (true, q, tr)) ∧
      (∃ q tr, StartServiceByName env.startEnv fuel = some (true, q, tr))) ∧
    ((∃ tr, PhaseEvent.startPhase tr ∈ evs) ↔
      (∃ q tr, StopServiceByName env.stopEnv fuel = some (true, q, tr))) := by
  unfold main at h
  rcases hS : StopServiceByName env.stopEnv fuel with - | ⟨b, q, tr⟩ <;> rw [hS] at h
  · exact Option.noConfusion h
  · cases b with
    | false =>
      simp only [Bool.false_eq_true, if_false, Option.some.injEq, Prod.mk.injEq] at h
      obtain ⟨hevs, -⟩ := h
      subst hevs
      simp [hS]
    | true =>
      rcases hT : StartServiceByName env.startEnv fuel with - | ⟨b2, q2, tr2⟩ <;>
        rw [hT] at h
      · simp at h
      · cases b2 with
        | false =>
          simp only [if_true, Bool.false_eq_true, if_false, Option.some.injEq,
            Prod.mk.injEq] at h
          obtain ⟨hevs, -⟩ := h
          subst hevs
          simp [hS, hT]
        | true =>
          simp only [if_true, Option.some.injEq, Prod.mk.injEq] at h
          obtain ⟨hevs, -⟩ := h
          subst hevs
          simp [hS, hT]

/-- Witness for C2 at a concrete input where every phase succeeds: the
resync call is present and both phases returned success. -/
theorem resync_iff_start_success_witness :
    (PhaseEvent.resyncCall ∈
        [PhaseEvent.stopPhase scopeTrace, PhaseEvent.startPhase scopeTrace,
          PhaseEvent.resyncCall] ↔
      (∃ q tr, StopServiceByName allOkMainEnv.stopEnv 1 = some (true, q, tr)) ∧
      (∃ q tr, StartServiceByName allOkMainEnv.startEnv 1 = some (true, q, tr))) ∧
    ((∃ tr, PhaseEvent.startPhase tr ∈
        [PhaseEvent.stopPhase scopeTrace, PhaseEvent.startPhase scopeTrace,
          PhaseEvent.resyncCall]) ↔
      (∃ q tr, StopServiceByName allOkMainEnv.stopEnv 1 = some (true, q, tr))) :=
  resync_iff_start_success allOkMainEnv 1 _ 0 rfl

/-- C3 counterexample: with `OpenSCManager` failing, the stop phase fails
(`StopServiceByName` returns `false`), yet `main` exits with status 0, not
the claimed status 1 for a stop failure. -/
theorem exit_code_counterexample :
    StopServiceByName stopFailMainEnv.stopEnv 1 = some (false, 0, []) ∧
    main stopFailMainEnv 1 = some ([PhaseEvent.stopPhase []], 0) ∧
    ¬ main stopFailMainEnv 1 = some ([PhaseEvent.stopPhase []], 1) := by
  refine ⟨rfl, rfl, by decide⟩

/-- C3 (amended): the process exit status is always 0, whatever the
outcome of the stop, start and resync phases; phase failures are reported
only through diagnostic messages, never through the exit status. -/
theorem exit_code_always_zero (env : MainEnv) (fuel : Nat)
    (evs : List PhaseEvent) (c : Int) (h : main env fuel = some (evs, c)) :
    c = 0 := by
  unfold main at h
  rcases hS : StopServiceByName env.stopEnv fuel with - | ⟨b, q, tr⟩ <;> rw [hS] at h
  · exact Option.noConfusion h
  · cases b with
    | false =>
      simp only [Bool.false_eq_true, if_false, Option.some.injEq, Prod.mk.injEq] at h
      omega
    | true =>
      rcases hT : StartServiceByName env.startEnv fuel with - | ⟨b2, q2, tr2⟩ <;>
        rw [hT] at h
      · simp at h
      · cases b2 with
        | false =>
          simp only [if_true, Bool.false_eq_true, if_false, Option.some.injEq,
            Prod.mk.injEq] at h
          omega
        | true =>
          simp only [if_true, Option.some.injEq, Prod.mk.injEq] at h
          omega

/-- Witness for the amended C3 at a concrete input: the all-success run
exits with status 0. -/
theorem exit_code_always_zero_witness : (0 : Int) = 0 :=
  exit_code_always_zero allOkMainEnv 1
    [PhaseEvent.stopPhase scopeTrace, PhaseEvent.startPhase scopeTrace,
      PhaseEvent.resyncCall] 0 rfl

/-- C8: every handle trace produced by `StopServiceByName` or
`StartServiceByName` is well scoped — each handle it opened is closed
within the trace, i.e. before the operation returns, on every path
including the early error returns — and in `main` the stop phase and the
start phase each carry their own separate trace, each well scoped, so no
handle is shared across phases or leaked. -/
theorem handle_scopes_released (senv : StopEnv) (tenv : StartEnv)
    (menv : MainEnv) (fuel : Nat) :
    (∀ b q tr, StopServiceByName senv fuel = some (b, q, tr) → WellScoped tr) ∧
    (∀ b q tr, StartServiceByName tenv fuel = some (b, q, tr) → WellScoped tr) ∧
    (∀ evs c, main menv fuel = some (evs, c) →
      ∀ tr, PhaseEvent.stopPhase tr ∈ evs ∨ PhaseEvent.startPhase tr ∈ evs →
        WellScoped tr) := by
  refine ⟨fun b q tr h => stop_trace_wellScoped senv fuel b q tr h,
    fun b q tr h => start_trace_wellScoped tenv fuel b q tr h, ?_⟩
  intro evs c h tr htr
  unfold main at h
  rcases hS : StopServiceByName menv.stopEnv fuel with - | ⟨b, q, trS⟩ <;> rw [hS] at h
  · exact Option.noConfusion h
  · cases b with
    | false =>
      simp only [Bool.false_eq_true, if_false, Option.some.injEq, Prod.mk.injEq] at h
      obtain ⟨hevs, -⟩ := h
      subst hevs
      simp only [List.mem_singleton, List.not_mem_nil] at htr
      rcases htr with htr | htr
      · rw [show tr = trS from PhaseEvent.stopPhase.inj htr]
        exact stop_trace_wellScoped menv.stopEnv fuel false q trS hS
      · exact absurd htr (by simp)
    | true =>
      rcases hT : StartServiceByName menv.startEnv fuel with - | ⟨b2, q2, trT⟩ <;>
        rw [hT] at h
      · simp at h
      · have hcases : tr = trS ∨ tr = trT := by
          cases b2 with
          | false =>
            simp only [if_true, Bool.false_eq_true, if_false, Option.some.injEq,
              Prod.mk.injEq] at h
            obtain ⟨hevs, -⟩ := h
            subst hevs
            simp only [List.mem_cons, List.mem_singleton, List.not_mem_nil,
              or_false] at htr
            rcases htr with htr | htr
            · rcases htr with htr | htr
              · exact Or.inl (PhaseEvent.stopPhase.inj htr)
              · exact absurd htr (by simp)
            · rcases htr with htr | htr
              · exact absurd htr (by simp)
              · exact Or.inr (PhaseEvent.startPhase.inj htr)
          | true =>
            simp only [if_true, Option.some.injEq, Prod.mk.injEq] at h
            obtain ⟨hevs, -⟩ := h
            subst hevs
            simp only [List.mem_cons, List.not_mem_nil, or_false] at htr
            rcases htr with htr | htr
            · rcases htr with htr | htr | htr
              · exact Or.inl (PhaseEvent.stopPhase.inj htr)
              · exact absurd htr (by simp)
              · exact absurd htr (by simp)
            · rcases htr with htr | htr | htr
              · exact absurd htr (by simp)
              · exact Or.inr (PhaseEvent.startPhase.inj htr)
              · exact absurd htr (by simp)
        rcases hcases with hc | hc
        · rw [hc]
          exact stop_trace_wellScoped menv.stopEnv fuel true q trS hS
        · rw [hc]
          exact start_trace_wellScoped menv.startEnv fuel b2 q2 trT hT

/-- Witness for C8 at concrete inputs: the full stop-path trace and the
empty trace of a failed `OpenSCManager` are both well scoped. -/
theorem handle_scopes_released_witness :
    WellScoped scopeTrace ∧ WellScoped [] :=
  ⟨(handle_scopes_released notActiveStopEnv alreadyRunningStartEnv allOkMainEnv 1).1
      true 1 scopeTrace rfl,
   (handle_scopes_released stopFailMainEnv.stopEnv alreadyRunningStartEnv
      stopFailMainEnv 1).1 false 0 [] rfl⟩

end TimeSync
